import Mathlib

/-!
Verification of the caching and semantic-retrieval core of the aithesaurus
word-analysis service.

The TypeScript sources are embedded shallowly:
* JavaScript numbers are modelled as real numbers (`ℝ`) where `Math.sqrt`
  is involved, and as rationals (`ℚ`) elsewhere; machine floating point is
  abstracted to exact arithmetic.
* `async` functions that can throw are modelled as `Except Unit`-valued
  functions; a thrown error is `.error ()`.
* External collaborators (the Ollama client, the Prisma-backed vector table,
  the word2vec library model) are passed in as explicit parameters holding
  their observable outcomes.
* `String.toLower` / `Char.toLower` model the ASCII behaviour of
  JavaScript `toLowerCase()`; non-ASCII case mapping is out of scope.
-/

namespace Thesaurus

/-! ## Data model (backend/src/types, reconstructed from use sites) -/

/-- A synonym/antonym entry: `{word, confidence}`. -/
structure RelatedWord where
  word : String
  confidence : ℚ
deriving DecidableEq, Repr

/-- A contextual-meaning entry as parsed from the model output. -/
structure ContextualMeaning where
  context : String
  meaning : String
  domain : Option String
  sentiment : Option ℚ
  examples : List String
deriving DecidableEq, Repr

/-- The aggregate produced by `performComprehensiveAnalysis`. -/
structure WordAnalysis where
  word : String
  definition : String
  partOfSpeech : String
  synonyms : List RelatedWord
  antonyms : List RelatedWord
  contexts : List ContextualMeaning
  confidence : ℚ
deriving DecidableEq, Repr

/-- Result of `generateEmbedding` (`EmbeddingResult` in the TS types). -/
structure EmbeddingResult where
  embedding : List ℝ
  dimension : Nat
  model : String

/-- One row returned by `prisma.wordEmbedding.findMany` with the joined
`word` relation (`embedding.ts` lines 135-147): the owning model tag, the
word fields selected, and the stored vector. -/
structure StoredEmbedding where
  model : String
  word : String
  definition : String
  partOfSpeech : String
  embedding : List ℝ

/-- One entry of the ranked list produced by the similarity search. -/
structure SemanticSearchResult where
  word : String
  similarity : ℝ
  definition : String
  partOfSpeech : String

/-- A `cache.set(key, value, ttl)` call observed during an operation. -/
structure CacheWrite where
  key : String
  ttlSeconds : Nat
deriving DecidableEq, Repr

/-! ## String helpers modelling the JavaScript primitives used -/

/-- JavaScript `\s` character class (ECMAScript WhiteSpace and
LineTerminator code points). -/
def jsWhitespace (c : Char) : Bool :=
  c = ' ' ∨ c = '\t' ∨ c = '\n' ∨ c = '\x0b' ∨ c = '\x0c' ∨ c = '\r' ∨
  c = '\u00A0' ∨ c = '\u1680' ∨ ('\u2000' ≤ c ∧ c ≤ '\u200A') ∨
  c = '\u2028' ∨ c = '\u2029' ∨ c = '\u202F' ∨ c = '\u205F' ∨
  c = '\u3000' ∨ c = '\uFEFF'

/-- ASCII letter, the `[a-zA-Z]` part of the fallback-parser pattern. -/
def isAsciiLetter (c : Char) : Bool :=
  ('a' ≤ c ∧ c ≤ 'z') ∨ ('A' ≤ c ∧ c ≤ 'Z')

/-- JavaScript `String.prototype.trim`: strips the `\s` class from both
ends. -/
def jsTrim (s : String) : String :=
  String.mk
    (((s.data.dropWhile jsWhitespace).reverse.dropWhile jsWhitespace).reverse)

/-- Splitting a character list at every separator character, keeping empty
segments (the semantics of JavaScript `split` with a single-character
class). -/
def splitChars (p : Char → Bool) : List Char → List (List Char)
  | [] => [[]]
  | c :: cs =>
    if p c then [] :: splitChars p cs
    else
      match splitChars p cs with
      | [] => [[c]]
      | w :: ws => (c :: w) :: ws

/-- JavaScript `response.split(/[,\n]/)`: split at every comma or newline,
keeping empty segments. -/
def splitCommaNewline (s : String) : List String :=
  (splitChars (fun c => c = ',' || c = '\n') s.data).map String.mk

/-- JavaScript truthiness of a `string | undefined` value: `undefined` and
the empty string are falsy, every other string is truthy. -/
def jsTruthy (s : Option String) : Bool :=
  match s with
  | none => false
  | some v => !(v == "")

/-- JavaScript `x || 'default'` applied to an optional string: `undefined`
and the empty string are both falsy. -/
def jsOrDefault (s : Option String) (d : String) : String :=
  match s with
  | none => d
  | some v => if v = "" then d else v

/-- JavaScript `String.prototype.toLowerCase` (ASCII range; `Char.toLower`
maps exactly the code points 65-90 to 97-122 and fixes everything else). -/
def jsToLower (s : String) : String := String.mk (s.data.map Char.toLower)

/-! ## Cosine similarity (src/services/embedding.ts, calculateCosineSimilarity) -/

/-- The `dotProduct` accumulator of the loop in `calculateCosineSimilarity`
(`embedding.ts` lines 175-183): sums `vecA[i] * vecB[i]`. -/
def dotProduct (vecA vecB : List ℝ) : ℝ :=
  (vecA.zip vecB).foldl (fun acc p => acc + p.1 * p.2) 0

/-- The `normA`/`normB` accumulators of the same loop before the square
root is taken: sums `v[i] * v[i]`. -/
def sumOfSquares (v : List ℝ) : ℝ :=
  v.foldl (fun acc x => acc + x * x) 0

/-- `calculateCosineSimilarity` from `embedding.ts` lines 170-193.
The source throws (`Vectors must have the same length`) when the lengths
differ; that is modelled by returning `none`.  Otherwise it returns
`0` when either norm is `0`, and `dot / (normA * normB)` otherwise. -/
noncomputable def calculateCosineSimilarity (vecA vecB : List ℝ) : Option ℝ :=
  if vecA.length ≠ vecB.length then none
  else
    let normA := Real.sqrt (sumOfSquares vecA)
    let normB := Real.sqrt (sumOfSquares vecB)
    if normA = 0 ∨ normB = 0 then some 0
    else some (dotProduct vecA vecB / (normA * normB))

/-- The cosine similarity exactly as worded in the specification:
`dot(a,b) / (||a|| * ||b||)`, defined as `0` when either norm is `0`.
Used as the reference function for the refinement claims. -/
noncomputable def specCosineSimilarity (a b : List ℝ) : ℝ :=
  if Real.sqrt (sumOfSquares a) = 0 ∨ Real.sqrt (sumOfSquares b) = 0 then 0
  else dotProduct a b / (Real.sqrt (sumOfSquares a) * Real.sqrt (sumOfSquares b))

/-! ## Brute-force fallback similarity search (embedding.ts, fallbackSimilaritySearch) -/

/-- Scoring one stored row inside the `.map` of `fallbackSimilaritySearch`
(`embedding.ts` lines 149-162).  `calculateCosineSimilarity` throwing
propagates out of the `.map`, which is modelled by `Except`. -/
noncomputable def scoreStoredEmbedding (queryEmbedding : List ℝ)
    (r : StoredEmbedding) : Except Unit SemanticSearchResult :=
  match calculateCosineSimilarity queryEmbedding r.embedding with
  | none => .error ()
  | some s => .ok ⟨r.word, s, r.definition, r.partOfSpeech⟩

/-- `fallbackSimilaritySearch` from `embedding.ts` lines 127-168: load the
stored vectors for `model` capped at `take: 1000`, score each against the
query, filter by `similarity >= threshold`, sort descending by similarity
(the comparator `(a, b) => b.similarity - a.similarity`), and truncate to
`limit`.  The whole database table is passed in as `db`. -/
noncomputable def fallbackSimilaritySearch (db : List StoredEmbedding)
    (queryEmbedding : List ℝ) (model : String) (limit : Nat) (threshold : ℝ) :
    Except Unit (List SemanticSearchResult) :=
  match ((db.filter (fun r => r.model = model)).take 1000).mapM
      (scoreStoredEmbedding queryEmbedding) with
  | .error e => .error e
  | .ok scored =>
    .ok ((((scored.filter (fun res => threshold ≤ res.similarity)).insertionSort
      (fun a b => b.similarity ≤ a.similarity))).take limit)

/-- The reference pipeline exactly as worded in the specification for the
fallback path: take the stored vectors for the model (cap 1000), compute
cosine similarity against each, keep those with similarity at or above the
threshold, sort descending, truncate to `limit`. -/
noncomputable def specFallbackPipeline (db : List StoredEmbedding)
    (queryEmbedding : List ℝ) (model : String) (limit : Nat) (threshold : ℝ) :
    List SemanticSearchResult :=
  (((((db.filter (fun r => r.model = model)).take 1000).map (fun r =>
    SemanticSearchResult.mk r.word (specCosineSimilarity queryEmbedding r.embedding)
      r.definition r.partOfSpeech)).filter
        (fun res => threshold ≤ res.similarity)).insertionSort
    (fun a b => b.similarity ≤ a.similarity)).take limit

/-! ## Embedding providers (part_006 word2vec service, part_007 embedding service) -/

inductive EmbeddingProvider where
  | ollama
  | word2vec
deriving DecidableEq, Repr

/-- The string interpolated for `options.provider`. -/
def providerName : EmbeddingProvider → String
  | .ollama => "ollama"
  | .word2vec => "word2vec"

/-- The loaded word2vec library model: `getVector` calls back with an
error on a vocabulary miss, modelled as `none`. -/
structure Word2VecModel where
  getVector : String → Option (List ℝ)

/-- `Word2VecConfig` (part_006 lines 5-15); only `vectorSize` is relevant
to the embedded operations, the training hyperparameters are omitted. -/
structure Word2VecConfig where
  vectorSize : Option Nat

/-- `defaultVectorSize` field of `Word2VecService` (part_006 line 22). -/
def defaultVectorSize : Nat := 300

/-- `getVectorSize()` (part_006 lines 153-155):
`this.config.vectorSize || this.defaultVectorSize`, where a configured `0`
is falsy in JavaScript. -/
def getVectorSize (config : Word2VecConfig) : Nat :=
  match config.vectorSize with
  | none => defaultVectorSize
  | some n => if n = 0 then defaultVectorSize else n

/-- The token looked up by `Word2VecService.generateEmbedding`
(part_006 line 69): `text.toLowerCase().trim().split(' ')[0]` — the first
SPACE-delimited (single `' '`) segment. -/
def word2vecFirstToken (text : String) : String :=
  String.mk ((jsTrim (jsToLower text)).data.takeWhile (fun c => c ≠ ' '))

/-- `Word2VecService.generateEmbedding` (part_006 lines 62-96): before a
model is loaded it throws `Word2Vec model not loaded`; after loading, on a
vocabulary miss it resolves with a zero vector of `defaultVectorSize`
(not of the configured size), and on a hit with the stored vector. -/
def word2vecGenerateEmbedding (loaded : Option Word2VecModel) (text : String) :
    Except Unit EmbeddingResult :=
  match loaded with
  | none => .error ()
  | some model =>
    match model.getVector (word2vecFirstToken text) with
    | none => .ok ⟨List.replicate defaultVectorSize 0, defaultVectorSize, "word2vec"⟩
    | some vector => .ok ⟨vector, vector.length, "word2vec"⟩

/-- `EmbeddingService.isProviderAvailable` (part_007 lines 332-341): for
`ollama` it returns `true` unconditionally (source comment: `Ollama
service is always available if configured`); for `word2vec` it returns
`word2vecService.isLoaded()`. -/
def isProviderAvailable (word2vecLoaded : Bool) : EmbeddingProvider → Bool
  | .ollama => true
  | .word2vec => word2vecLoaded

/-- The availability query as worded in the specification: it must reflect
the provider's actual current loaded/reachable state
(`ollamaReachable` — what `checkModelAvailability` would report — for the
remote provider, the loaded flag for the local one). -/
def specProviderAvailable (ollamaReachable word2vecLoaded : Bool) :
    EmbeddingProvider → Bool
  | .ollama => ollamaReachable
  | .word2vec => word2vecLoaded

/-! ## Cache keys and TTLs (ollama.ts, part_007) -/

/-- Cache key of `generateEmbedding` (`ollama.ts` line 20). -/
def embeddingCacheKey (embeddingModel text : String) : String :=
  "embedding:" ++ embeddingModel ++ ":" ++ text

/-- TTL of a cached embedding (`ollama.ts` line 40). -/
def embeddingCacheTtlSeconds : Nat := 3600

/-- Cache key of `findSynonyms` (`ollama.ts` line 51):
`synonyms:${word}:${context || 'default'}`. -/
def synonymsCacheKey (word : String) (context : Option String) : String :=
  "synonyms:" ++ word ++ ":" ++ jsOrDefault context "default"

/-- Cache key of `performComprehensiveAnalysis` (`ollama.ts` line 168):
`analysis:${word}:${context || 'default'}`. -/
def analysisCacheKey (word : String) (context : Option String) : String :=
  "analysis:" ++ word ++ ":" ++ jsOrDefault context "default"

/-- Cache key of `EmbeddingService.findSimilarWords` (part_007 line 82):
`semantic_search:${queryText}:${limit}:${threshold}:${options.provider}:${options.model || 'default'}`.
Number-to-string interpolation is modelled by `toString`. -/
def semanticSearchCacheKey (queryText : String) (limit : Nat) (threshold : ℚ)
    (provider : EmbeddingProvider) (model : Option String) : String :=
  "semantic_search:" ++ queryText ++ ":" ++ toString limit ++ ":" ++
    toString threshold ++ ":" ++ providerName provider ++ ":" ++
    jsOrDefault model "default"

/-- TTL of a cached semantic-search result list (part_007 line 102 and
`embedding.ts` line 73). -/
def semanticSearchResultTtlSeconds : Nat := 1800

/-- `EmbeddingService.findSimilarEmbeddings` (part_007 lines 111-154): the
native pgvector query's outcome is the oracle `native`; on its failure the
brute-force fallback runs. -/
noncomputable def findSimilarEmbeddings
    (native : Except Unit (List SemanticSearchResult))
    (db : List StoredEmbedding) (queryEmbedding : List ℝ) (model : String)
    (limit : Nat) (threshold : ℝ) : Except Unit (List SemanticSearchResult) :=
  match native with
  | .ok results => .ok results
  | .error _ => fallbackSimilaritySearch db queryEmbedding model limit threshold

/-- The cache-miss path of `EmbeddingService.findSimilarWords` (part_007
lines 76-109): run the search (native or fallback) and, on success, cache
the ranked list under the composite key with TTL 1800.  The returned
`CacheWrite` records the `cache.set` call performed. -/
noncomputable def findSimilarWords (queryText : String) (limit : Nat)
    (threshold : ℚ) (provider : EmbeddingProvider) (model : Option String)
    (queryEmbedding : EmbeddingResult)
    (native : Except Unit (List SemanticSearchResult))
    (db : List StoredEmbedding) :
    Except Unit (List SemanticSearchResult × CacheWrite) :=
  match findSimilarEmbeddings native db queryEmbedding.embedding
      queryEmbedding.model limit (threshold : ℝ) with
  | .error e => .error e
  | .ok similarWords =>
    .ok (similarWords,
      ⟨semanticSearchCacheKey queryText limit threshold provider model,
        semanticSearchResultTtlSeconds⟩)

/-! ## Analysis orchestrator (ollama.ts) -/

/-- JavaScript word character `\w`, used for the `\b` boundaries of the
part-of-speech pattern. -/
def isJsWordChar (c : Char) : Bool := c.isAlphanum || c = '_'

/-- The alternatives of the part-of-speech pattern
(`ollama.ts` lines 339-341), in alternation order. -/
def posKeywords : List String :=
  ["noun", "verb", "adjective", "adverb", "preposition", "conjunction",
   "interjection"]

/-- Whether the case-insensitive keyword `w` matches `cs` at offset `i`
with `\b` boundaries on both sides. -/
def matchesKeywordAt (cs : List Char) (i : Nat) (w : List Char) : Bool :=
  ((cs.drop i).take w.length).map Char.toLower == w &&
  (i == 0 || !isJsWordChar (cs.getD (i - 1) ' ')) &&
  (decide (cs.length ≤ i + w.length) || !isJsWordChar (cs.getD (i + w.length) ' '))

/-- `extractPartOfSpeech` (`ollama.ts` lines 338-349): the first (leftmost,
then in alternation order) part-of-speech word occurring in the definition
with word boundaries, lower-cased; `unknown` when none occurs. -/
def extractPartOfSpeech (definition : String) : String :=
  let cs := definition.data
  match (List.range cs.length).findSome? (fun i =>
      posKeywords.findSome? (fun w =>
        if matchesKeywordAt cs i w.data then some w else none)) with
  | some w => w
  | none => "unknown"

/-- `calculateOverallConfidence` (`ollama.ts` lines 351-357): average of
all synonym and antonym confidences, `0` if there are none, rounded via
`Math.round(avg * 100) / 100` (`Math.round x = ⌊x + 1/2⌋`). -/
def calculateOverallConfidence (synonyms antonyms : List RelatedWord) : ℚ :=
  let allWords := synonyms ++ antonyms
  if allWords.length = 0 then 0
  else
    let avgConfidence : ℚ :=
      (allWords.foldl (fun sum w => sum + w.confidence) (0 : ℚ)) / (allWords.length : ℚ)
    ((⌊avgConfidence * 100 + 1 / 2⌋ : ℤ) : ℚ) / 100

/-- `fallbackParseWords` (`ollama.ts` lines 325-336): split the raw model
response on commas and newlines, trim each piece, keep the non-empty ones
matching `/^[a-zA-Z\s-]+$/`, take at most 10, and emit each lower-cased
with the fixed confidence `0.6`. -/
def fallbackParseWords (response : String) : List RelatedWord :=
  let words := (((splitCommaNewline response).map jsTrim).filter
    (fun w => w != "" &&
      (!w.data.isEmpty &&
        w.data.all (fun c => isAsciiLetter c || jsWhitespace c || c = '-')))).take 10
  words.map (fun word => ⟨jsToLower word, 0.6⟩)

/-- `performComprehensiveAnalysis` (`ollama.ts` lines 167-199), cache-miss
path.  The four sub-operations (`findSynonyms`, `findAntonyms`,
`getDefinition`, and — only when a truthy context is given —
`analyzeContextualMeaning`) are oracles: each either resolves with its
parsed value or rejects (`.error ()`, the sub-operation rethrows any
transport failure).  The contextual sub-call is guarded by the ternary
`context ? this.analyzeContextualMeaning(word, context) :
Promise.resolve([])` (line 179), so an absent context AND the empty
string (falsy in JavaScript, `jsTruthy`) both skip it and contribute `[]`.
`Promise.all` rejects as soon as any of the awaited promises rejects, and
the surrounding `try/catch` rethrows, so a single sub-failure fails the
whole analysis. -/
def performComprehensiveAnalysis (word : String) (context : Option String)
    (synonymsOutcome antonymsOutcome : Except Unit (List RelatedWord))
    (definitionOutcome : Except Unit String)
    (contextOutcome : Except Unit (List ContextualMeaning)) :
    Except Unit WordAnalysis :=
  let contextual : Except Unit (List ContextualMeaning) :=
    if jsTruthy context then contextOutcome else .ok []
  match synonymsOutcome, antonymsOutcome, definitionOutcome, contextual with
  | .ok synonyms, .ok antonyms, .ok definition, .ok contextualMeanings =>
    .ok ⟨word, definition, extractPartOfSpeech definition, synonyms, antonyms,
      contextualMeanings, calculateOverallConfidence synonyms antonyms⟩
  | _, _, _, _ => .error ()

/-! ## Cache key similarity (part_009 CacheService) -/

/-- One inner step of the Levenshtein dynamic program
(part_009 lines 496-505): given the remaining characters of `str1`, the
remaining entries of the previous row, the diagonal value
`matrix[j-1][i-1]` and the value just computed to the left
`matrix[j][i-1]`, produce the rest of row `j`. -/
def levenshteinRowStep (c2 : Char) :
    List Char → List Nat → Nat → Nat → List Nat
  | [], _, _, _ => []
  | _ :: _, [], _, _ => []
  | c1 :: s1, p :: ps, diag, left =>
    let indicator := if c1 = c2 then 0 else 1
    let v := min (min (left + 1) (p + 1)) (diag + indicator)
    v :: levenshteinRowStep c2 s1 ps p v

/-- Row `j` of the Levenshtein matrix from row `j-1`: the border cell
`matrix[j][0] = j` followed by the inner cells. -/
def levenshteinNextRow (c2 : Char) (s1 : List Char) (prev : List Nat) :
    List Nat :=
  match prev with
  | [] => []
  | p :: ps => (p + 1) :: levenshteinRowStep c2 s1 ps p (p + 1)

/-- `calculateLevenshteinDistance` (part_009 lines 490-508): the row-by-row
dynamic program, returning `matrix[str2.length][str1.length]`. -/
def calculateLevenshteinDistance (str1 str2 : String) : Nat :=
  let s1 := str1.data
  let firstRow := List.range (s1.length + 1)
  (str2.data.foldl (fun prev c2 => levenshteinNextRow c2 s1 prev) firstRow).getLastD 0

/-- `calculateStringSimilarity` (part_009 lines 480-488):
`(longer.length - editDistance) / longer.length`, and `1.0` when the
longer string is empty. -/
def calculateStringSimilarity (str1 str2 : String) : ℚ :=
  let longer := if str1.length > str2.length then str1 else str2
  let shorter := if str1.length > str2.length then str2 else str1
  if longer.length = 0 then 1
  else ((longer.length : ℚ) - calculateLevenshteinDistance longer shorter) /
    longer.length

/-- `CacheService.findSimilarKeys` (part_009 lines 460-478): collect every
live key (of any operation) whose similarity to the candidate is at least
the threshold, excluding the candidate key itself. -/
def findSimilarKeys (liveKeys : List String) (key : String) (threshold : ℚ) :
    List String :=
  liveKeys.filter (fun cacheKey =>
    threshold ≤ calculateStringSimilarity key cacheKey && cacheKey != key)

end Thesaurus

namespace Thesaurus

/-! ## Helper lemmas -/

lemma foldl_add_eq {α : Type} (f : α → ℝ) :
    ∀ (l : List α) (c : ℝ), l.foldl (fun acc x => acc + f x) c = c + (l.map f).sum := by
  intro l
  induction l with
  | nil => intro c; simp
  | cons a t ih =>
    intro c
    simp only [List.foldl_cons, List.map_cons, List.sum_cons, ih]
    ring

lemma sumOfSquares_eq_sum (v : List ℝ) :
    sumOfSquares v = (v.map (fun x => x * x)).sum := by
  have h := foldl_add_eq (fun x : ℝ => x * x) v 0
  simpa [sumOfSquares] using h

lemma dotProduct_eq_sum (a b : List ℝ) :
    dotProduct a b = ((a.zip b).map (fun p => p.1 * p.2)).sum := by
  have h := foldl_add_eq (fun p : ℝ × ℝ => p.1 * p.2) (a.zip b) 0
  simpa [dotProduct] using h

lemma sumOfSquares_nonneg (v : List ℝ) : 0 ≤ sumOfSquares v := by
  rw [sumOfSquares_eq_sum]
  apply List.sum_nonneg
  intro x hx
  rcases List.mem_map.mp hx with ⟨y, _, rfl⟩
  exact mul_self_nonneg y

lemma sumOfSquares_eq_zero_iff (v : List ℝ) :
    sumOfSquares v = 0 ↔ ∀ x ∈ v, x = 0 := by
  induction v with
  | nil => simp [sumOfSquares]
  | cons a t ih =>
    rw [sumOfSquares_eq_sum] at *
    simp only [List.map_cons, List.sum_cons]
    constructor
    · intro h
      have ha : 0 ≤ a * a := mul_self_nonneg a
      have ht : 0 ≤ ((t.map (fun x => x * x)).sum) := by
        apply List.sum_nonneg
        intro x hx
        rcases List.mem_map.mp hx with ⟨y, _, rfl⟩
        exact mul_self_nonneg y
      have h2 : a * a = 0 ∧ ((t.map (fun x => x * x)).sum) = 0 :=
        (add_eq_zero_iff_of_nonneg ha ht).mp h
      intro x hx
      rcases List.mem_cons.mp hx with rfl | hxt
      · exact mul_self_eq_zero.mp h2.1
      · exact ih.mp h2.2 x hxt
    · intro h
      have ha : a = 0 := h a (List.mem_cons_self a t)
      have ht : ((t.map (fun x => x * x)).sum) = 0 :=
        ih.mpr (fun x hx => h x (List.mem_cons_of_mem a hx))
      rw [ha, ht]
      ring

lemma dotProduct_self (v : List ℝ) : dotProduct v v = sumOfSquares v := by
  induction v with
  | nil => simp [dotProduct, sumOfSquares]
  | cons a t ih =>
    rw [dotProduct_eq_sum, sumOfSquares_eq_sum] at *
    simp_all

lemma dotProduct_comm (a b : List ℝ) : dotProduct a b = dotProduct b a := by
  rw [dotProduct_eq_sum, dotProduct_eq_sum]
  induction a generalizing b with
  | nil => cases b <;> simp
  | cons x t ih =>
    cases b with
    | nil => simp
    | cons y s => simp [List.zip_cons_cons, ih, mul_comm]


lemma charLe_iff (a b : Char) : a ≤ b ↔ a.toNat ≤ b.toNat := by
  rw [Char.le_def, UInt32.le_def, BitVec.le_def]
  rfl

/-! ## Claim C1: partial-failure aggregation in the orchestrator -/

/-- C1 counterexample: with the antonym sub-call failing while the synonym
and definition sub-calls succeed (and no context given), the claim predicts
a successful `AnalysisResult` with `antonyms = []`; the code instead rejects
the whole comprehensive analysis. -/
theorem claim1_counterexample :
    performComprehensiveAnalysis "happy" none
      (.ok [⟨"joyful", 9/10⟩]) (.error ()) (.ok "feeling or showing pleasure")
      (.ok []) = .error () := rfl

/-- C1 (amended): `performComprehensiveAnalysis` succeeds if and only if
every needed sub-operation succeeds, the contextual-meaning one only being
needed when a truthy context is given (an absent context and the falsy
empty string both skip it); a single sub-operation failure fails the whole
analysis, and partial results are never returned. -/
theorem claim1_amended (word : String) (context : Option String)
    (synonymsOutcome antonymsOutcome : Except Unit (List RelatedWord))
    (definitionOutcome : Except Unit String)
    (contextOutcome : Except Unit (List ContextualMeaning)) :
    (performComprehensiveAnalysis word context synonymsOutcome antonymsOutcome
      definitionOutcome contextOutcome).isOk = true ↔
    (synonymsOutcome.isOk = true ∧ antonymsOutcome.isOk = true ∧
      definitionOutcome.isOk = true ∧
      (jsTruthy context = true → contextOutcome.isOk = true)) := by
  cases synonymsOutcome <;> cases antonymsOutcome <;> cases definitionOutcome <;>
    cases contextOutcome <;> cases hj : jsTruthy context <;>
      simp [performComprehensiveAnalysis, hj, Except.isOk, Except.toBool]

/-! ## Claim C6: absent context vs explicit default context token -/

/-- C6 counterexample: at the concrete word `happy`, the key built with no
context equals the key built with the explicit context string `default`,
for both the synonym sub-operation and the comprehensive analysis. -/
theorem claim6_counterexample :
    synonymsCacheKey "happy" none = synonymsCacheKey "happy" (some "default") ∧
    analysisCacheKey "happy" none = analysisCacheKey "happy" (some "default") := by
  constructor <;> rfl

/-- C6 (amended): for every word, the absence of a context and the explicit
context string `default` produce the SAME cache key (`context || 'default'`
collapses them), for the sub-operation keys and the analysis key alike. -/
theorem claim6_amended (word : String) :
    synonymsCacheKey word none = synonymsCacheKey word (some "default") ∧
    analysisCacheKey word none = analysisCacheKey word (some "default") := by
  constructor <;> rfl

/-! ## Claim C9: provider availability -/

/-- C9 counterexample: when the Ollama backend is unreachable
(`checkModelAvailability` would report `false`), `isProviderAvailable`
still answers `true` for the `ollama` provider, against the claimed
equivalence with the actual current state. -/
theorem claim9_counterexample :
    isProviderAvailable false EmbeddingProvider.ollama = true ∧
    specProviderAvailable false false EmbeddingProvider.ollama = false := by
  decide

/-- C9 (amended): `isProviderAvailable` reflects the actual loaded state
only for the `word2vec` provider; for the `ollama` provider it returns
`true` unconditionally (configuration intent, not reachability). -/
theorem claim9_amended : ∀ word2vecLoaded : Bool,
    isProviderAvailable word2vecLoaded EmbeddingProvider.word2vec = word2vecLoaded ∧
    isProviderAvailable word2vecLoaded EmbeddingProvider.ollama = true := by
  decide

/-! ## Claim C8: word2vec generateEmbedding -/

/-- C8 counterexample: with a configured vector size of 100 and an empty
vocabulary, the miss vector has dimension 300 (`defaultVectorSize`), not
the configured 100; and the looked-up token for `a<TAB>b c` is `a<TAB>b`
(split on single spaces), not the first whitespace-delimited token `a`. -/
theorem claim8_counterexample :
    ¬ (∀ (config : Word2VecConfig) (m : Word2VecModel) (text : String)
        (r : EmbeddingResult),
        m.getVector (word2vecFirstToken text) = none →
        word2vecGenerateEmbedding (some m) text = .ok r →
        r.dimension = getVectorSize config) ∧
    word2vecFirstToken "a\tb c" = "a\tb" := by
  constructor
  · intro h
    have h100 := h ⟨some 100⟩ ⟨fun _ => none⟩ "dog"
      ⟨List.replicate defaultVectorSize 0, defaultVectorSize, "word2vec"⟩ rfl rfl
    exact absurd h100 (by decide)
  · decide

/-- C8 (amended): before a model is loaded `generateEmbedding` fails with
the model-not-loaded error; after loading, the provider looks up the first
SPACE-delimited token of the lowercased trimmed text, and on a vocabulary
miss returns an all-zero vector of the fixed default dimension 300
regardless of the configured vector size. -/
theorem claim8_amended (m : Word2VecModel) (text : String)
    (hmiss : m.getVector (word2vecFirstToken text) = none) :
    word2vecGenerateEmbedding none text = .error () ∧
    word2vecGenerateEmbedding (some m) text =
      .ok ⟨List.replicate defaultVectorSize 0, defaultVectorSize, "word2vec"⟩ := by
  refine ⟨rfl, ?_⟩
  simp [word2vecGenerateEmbedding, hmiss]

/-- C8 witness: the amended theorem applied to the empty-vocabulary model
and the word `dog`. -/
theorem claim8_witness :
    word2vecGenerateEmbedding none "dog" = .error () ∧
    word2vecGenerateEmbedding (some ⟨fun _ => none⟩) "dog" =
      .ok ⟨List.replicate defaultVectorSize 0, defaultVectorSize, "word2vec"⟩ :=
  claim8_amended ⟨fun _ => none⟩ "dog" rfl



/-! ## Claim C10: the permissive fallback word parser -/

lemma toLower_upper_case (c : Char) (h1 : 65 ≤ c.toNat) (h2 : c.toNat ≤ 90) :
    (Char.toLower c).toNat = c.toNat + 32 := by
  have hval : Char.toLower c = Char.ofNat (c.toNat + 32) := by
    simp [Char.toLower, h1, h2]
  rw [hval]
  unfold Char.ofNat
  rw [dif_pos (by left; omega : (c.toNat + 32).isValidChar)]
  rfl

lemma toLower_not_upper (c : Char) (h : ¬ (65 ≤ c.toNat ∧ c.toNat ≤ 90)) :
    Char.toLower c = c := by
  simp only [Char.toLower, ge_iff_le]
  rw [if_neg]
  simpa using h

/-- A character allowed by the `/^[a-zA-Z\s-]+$/` filter is mapped by
`toLowerCase` into a lowercase letter, a whitespace character, or a
hyphen. -/
lemma toLower_allowed (c : Char)
    (h : (isAsciiLetter c || jsWhitespace c || c = '-') = true) :
    ('a' ≤ Char.toLower c ∧ Char.toLower c ≤ 'z') ∨
      jsWhitespace (Char.toLower c) = true ∨ Char.toLower c = '-' := by
  by_cases hc : 65 ≤ c.toNat ∧ c.toNat ≤ 90
  · left
    have ht := toLower_upper_case c hc.1 hc.2
    rw [charLe_iff, charLe_iff, ht]
    have h97 : Char.toNat 'a' = 97 := rfl
    have h122 : Char.toNat 'z' = 122 := rfl
    rw [h97, h122]
    omega
  · rw [toLower_not_upper c hc]
    have h' : (('a' ≤ c ∧ c ≤ 'z') ∨ ('A' ≤ c ∧ c ≤ 'Z')) ∨
        jsWhitespace c = true ∨ c = '-' := by
      have h0 : ((('a' ≤ c ∧ c ≤ 'z') ∨ ('A' ≤ c ∧ c ≤ 'Z')) ∨
          jsWhitespace c = true) ∨ c = '-' := by
        simpa [isAsciiLetter, Bool.or_eq_true, decide_eq_true_eq] using h
      tauto
    rcases h' with (hl | hu) | hw | hd
    · exact Or.inl hl
    · exfalso
      apply hc
      have h65 : Char.toNat 'A' = 65 := rfl
      have h90 : Char.toNat 'Z' = 90 := rfl
      rw [charLe_iff, h65] at hu
      rcases hu with ⟨hu1, hu2⟩
      rw [charLe_iff, h90] at hu2
      exact ⟨hu1, hu2⟩
    · exact Or.inr (Or.inl hw)
    · exact Or.inr (Or.inr hd)

/-- C10 counterexample: on the input `a<TAB>b` the parser returns the
entry `a<TAB>b` whose word contains a tab — a character that is not a
letter, a space, or a hyphen (the `\s` class of the filter admits any
whitespace, not just spaces). -/
theorem claim10_counterexample :
    fallbackParseWords "a\tb" = [⟨"a\tb", 0.6⟩] ∧
    ¬ (∀ c ∈ ("a\tb" : String).data, isAsciiLetter c ∨ c = ' ' ∨ c = '-') :=
  ⟨rfl, by decide⟩

/-- C10 (amended): the fallback parser returns at most 10 entries; every
entry has confidence exactly 0.6 and a non-empty word whose characters are
all lowercase letters, JavaScript whitespace characters, or hyphens. -/
theorem claim10_amended (response : String) :
    (fallbackParseWords response).length ≤ 10 ∧
    ∀ r ∈ fallbackParseWords response,
      r.confidence = 0.6 ∧ r.word ≠ "" ∧
      ∀ c ∈ r.word.data,
        (('a' ≤ c ∧ c ≤ 'z') ∨ jsWhitespace c = true ∨ c = '-') := by
  constructor
  · rw [fallbackParseWords, List.length_map]
    exact List.length_take_le 10 _
  · intro r hr
    rw [fallbackParseWords] at hr
    rcases List.mem_map.mp hr with ⟨w, hw, rfl⟩
    have hw' := List.mem_of_mem_take hw
    have hfilter := (List.mem_filter.mp hw').2
    simp only [Bool.and_eq_true, bne_iff_ne, ne_eq, Bool.not_eq_true',
      List.all_eq_true] at hfilter
    obtain ⟨hne, hnonempty, hall⟩ := hfilter
    refine ⟨rfl, ?_, ?_⟩
    · intro hempty
      apply hne
      have hdata : w.data.map Char.toLower = [] := congrArg String.data hempty
      have : w.data = [] := List.map_eq_nil_iff.mp hdata
      cases w
      simp_all
    · intro c hc
      have hc' : c ∈ w.data.map Char.toLower := hc
      rcases List.mem_map.mp hc' with ⟨c0, hc0, rfl⟩
      exact toLower_allowed c0 (hall c0 hc0)



/-! ## Claim C5: caching of the ranked similarity-search result list -/

/-- C5: whenever the similarity search completes (through the native path
or the brute-force fallback alike), the ranked result list is cached under
the composite key containing the query text, the limit, the threshold, the
provider, and the model, with TTL 1800 seconds — strictly shorter than the
3600-second TTL used for a cached embedding. -/
theorem claim5_result_caching (queryText : String) (limit : Nat)
    (threshold : ℚ) (provider : EmbeddingProvider) (model : Option String)
    (queryEmbedding : EmbeddingResult)
    (native : Except Unit (List SemanticSearchResult))
    (db : List StoredEmbedding)
    (results : List SemanticSearchResult) (write : CacheWrite)
    (h : findSimilarWords queryText limit threshold provider model
      queryEmbedding native db = .ok (results, write)) :
    write.key = "semantic_search:" ++ queryText ++ ":" ++ toString limit ++
      ":" ++ toString threshold ++ ":" ++ providerName provider ++ ":" ++
      jsOrDefault model "default" ∧
    write.ttlSeconds = semanticSearchResultTtlSeconds ∧
    semanticSearchResultTtlSeconds < embeddingCacheTtlSeconds := by
  rw [findSimilarWords] at h
  cases hfe : findSimilarEmbeddings native db queryEmbedding.embedding
      queryEmbedding.model limit (threshold : ℝ) with
  | error e => rw [hfe] at h; exact absurd h (by simp)
  | ok s =>
    rw [hfe] at h
    have hw : write = ⟨semanticSearchCacheKey queryText limit threshold
        provider model, semanticSearchResultTtlSeconds⟩ := by
      have := (Prod.mk.injEq _ _ _ _).mp (Except.ok.inj h)
      exact this.2.symm
    rw [hw]
    exact ⟨rfl, rfl, by decide⟩

/-- C5 witness: the theorem applied to a concrete native-path run. -/
theorem claim5_witness :
    (⟨semanticSearchCacheKey "dog" 10 (7/10) EmbeddingProvider.ollama none,
        semanticSearchResultTtlSeconds⟩ : CacheWrite).key =
      "semantic_search:" ++ "dog" ++ ":" ++ toString (10 : Nat) ++ ":" ++
        toString ((7 : ℚ)/10) ++ ":" ++ providerName EmbeddingProvider.ollama ++
        ":" ++ jsOrDefault none "default" ∧
    (⟨semanticSearchCacheKey "dog" 10 (7/10) EmbeddingProvider.ollama none,
        semanticSearchResultTtlSeconds⟩ : CacheWrite).ttlSeconds =
      semanticSearchResultTtlSeconds ∧
    semanticSearchResultTtlSeconds < embeddingCacheTtlSeconds :=
  claim5_result_caching "dog" 10 (7/10) EmbeddingProvider.ollama none
    ⟨[], 0, "m"⟩ (.ok []) [] []
    ⟨semanticSearchCacheKey "dog" 10 (7/10) EmbeddingProvider.ollama none,
      semanticSearchResultTtlSeconds⟩ rfl



/-! ## Claim C4: algebraic properties of the cosine similarity -/

lemma cosine_eq_of_length (a b : List ℝ) (h : a.length = b.length) :
    calculateCosineSimilarity a b =
      if Real.sqrt (sumOfSquares a) = 0 ∨ Real.sqrt (sumOfSquares b) = 0 then some 0
      else some (dotProduct a b /
        (Real.sqrt (sumOfSquares a) * Real.sqrt (sumOfSquares b))) := by
  unfold calculateCosineSimilarity
  rw [if_neg (by omega)]

lemma cosine_none_of_length (a b : List ℝ) (h : a.length ≠ b.length) :
    calculateCosineSimilarity a b = none := by
  unfold calculateCosineSimilarity
  rw [if_pos h]

/-- C4: the cosine-similarity function is symmetric (on all inputs, equal
length or not), never throws for equal-length inputs, returns exactly `1`
on `(a, a)` for nonzero `a`, and returns exactly `0` when either
equal-length input is all-zero. -/
theorem claim4_cosine_properties :
    (∀ a b : List ℝ, calculateCosineSimilarity a b = calculateCosineSimilarity b a) ∧
    (∀ a b : List ℝ, a.length = b.length →
      (calculateCosineSimilarity a b).isSome = true) ∧
    (∀ a : List ℝ, (∃ x ∈ a, x ≠ 0) →
      calculateCosineSimilarity a a = some 1) ∧
    (∀ a b : List ℝ, a.length = b.length →
      ((∀ x ∈ a, x = 0) ∨ (∀ x ∈ b, x = 0)) →
      calculateCosineSimilarity a b = some 0) := by
  refine ⟨?_, ?_, ?_, ?_⟩
  · intro a b
    by_cases h : a.length = b.length
    · rw [cosine_eq_of_length a b h, cosine_eq_of_length b a h.symm]
      by_cases hA : Real.sqrt (sumOfSquares a) = 0 <;>
        by_cases hB : Real.sqrt (sumOfSquares b) = 0
      · rw [if_pos (Or.inl hA), if_pos (Or.inr hA)]
      · rw [if_pos (Or.inl hA), if_pos (Or.inr hA)]
      · rw [if_pos (Or.inr hB), if_pos (Or.inl hB)]
      · rw [if_neg (by tauto), if_neg (by tauto), dotProduct_comm a b, mul_comm]
    · rw [cosine_none_of_length a b h,
        cosine_none_of_length b a (fun hh => h hh.symm)]
  · intro a b h
    rw [cosine_eq_of_length a b h]
    by_cases hz : Real.sqrt (sumOfSquares a) = 0 ∨ Real.sqrt (sumOfSquares b) = 0
    · rw [if_pos hz]; rfl
    · rw [if_neg hz]; rfl
  · intro a ha
    have hS : 0 < sumOfSquares a := by
      rcases ha with ⟨x, hx, hxne⟩
      have hne : sumOfSquares a ≠ 0 := by
        intro h0
        exact hxne ((sumOfSquares_eq_zero_iff a).mp h0 x hx)
      exact lt_of_le_of_ne (sumOfSquares_nonneg a) (Ne.symm hne)
    have hsq : Real.sqrt (sumOfSquares a) ≠ 0 :=
      (Real.sqrt_ne_zero (le_of_lt hS)).mpr (ne_of_gt hS)
    rw [cosine_eq_of_length a a rfl, if_neg (by tauto)]
    rw [dotProduct_self, Real.mul_self_sqrt (le_of_lt hS),
      div_self (ne_of_gt hS)]
  · intro a b h hz
    rw [cosine_eq_of_length a b h]
    rcases hz with hza | hzb
    · rw [if_pos (Or.inl (by
        rw [(sumOfSquares_eq_zero_iff a).mpr hza, Real.sqrt_zero]))]
    · rw [if_pos (Or.inr (by
        rw [(sumOfSquares_eq_zero_iff b).mpr hzb, Real.sqrt_zero]))]

/-- C4 witness: the theorem instantiated at concrete vectors. -/
theorem claim4_witness :
    calculateCosineSimilarity [(1 : ℝ), 0] [(1 : ℝ), 0] = some 1 ∧
    calculateCosineSimilarity [(0 : ℝ)] [(5 : ℝ)] = some 0 ∧
    (calculateCosineSimilarity [(1 : ℝ), 2] [(3 : ℝ), 4]).isSome = true :=
  ⟨claim4_cosine_properties.2.2.1 [(1 : ℝ), 0] ⟨1, by simp, one_ne_zero⟩,
   claim4_cosine_properties.2.2.2 [(0 : ℝ)] [(5 : ℝ)] rfl (Or.inl (by simp)),
   claim4_cosine_properties.2.1 [(1 : ℝ), 2] [(3 : ℝ), 4] rfl⟩


/-! ## Claims C2 and C3: the brute-force fallback search -/

lemma cosine_spec_of_length (a b : List ℝ) (h : a.length = b.length) :
    calculateCosineSimilarity a b = some (specCosineSimilarity a b) := by
  rw [cosine_eq_of_length a b h]
  unfold specCosineSimilarity
  split_ifs <;> rfl

lemma mapM_score_ok (q : List ℝ) :
    ∀ (l : List StoredEmbedding), (∀ r ∈ l, r.embedding.length = q.length) →
    l.mapM (scoreStoredEmbedding q) = .ok (l.map (fun r =>
      SemanticSearchResult.mk r.word (specCosineSimilarity q r.embedding)
        r.definition r.partOfSpeech)) := by
  intro l
  induction l with
  | nil => intro _; rfl
  | cons r t ih =>
    intro h
    have hr : scoreStoredEmbedding q r = .ok ⟨r.word,
        specCosineSimilarity q r.embedding, r.definition, r.partOfSpeech⟩ := by
      unfold scoreStoredEmbedding
      rw [cosine_spec_of_length q r.embedding
        (h r (List.mem_cons_self r t)).symm]
    rw [List.mapM_cons, hr, ih (fun x hx => h x (List.mem_cons_of_mem r hx))]
    rfl

lemma mapM_score_error (q : List ℝ) :
    ∀ (l : List StoredEmbedding), (∃ r ∈ l, r.embedding.length ≠ q.length) →
    l.mapM (scoreStoredEmbedding q) = .error () := by
  intro l
  induction l with
  | nil => rintro ⟨r, hr, -⟩; cases hr
  | cons a t ih =>
    rintro ⟨r, hr, hne⟩
    rw [List.mapM_cons]
    rcases List.mem_cons.mp hr with rfl | hrt
    · have ha : scoreStoredEmbedding q r = .error () := by
        unfold scoreStoredEmbedding
        rw [cosine_none_of_length q r.embedding (fun hh => hne hh.symm)]
      rw [ha]
      rfl
    · cases hsc : scoreStoredEmbedding q a with
      | error e => cases e; rfl
      | ok v => rw [ih ⟨r, hrt, hne⟩]; rfl

/-- C2 counterexample: a corpus holding one vector of matching length and
one of mismatching length; the whole brute-force search throws instead of
skipping the mismatched vector and returning a result. -/
theorem claim2_counterexample :
    fallbackSimilaritySearch
      [⟨"m", "w1", "d1", "noun", [(1 : ℝ), 0]⟩, ⟨"m", "w2", "d2", "noun", [(1 : ℝ)]⟩]
      [(1 : ℝ), 0] "m" 10 0 = .error () := by
  unfold fallbackSimilaritySearch
  rw [show (([⟨"m", "w1", "d1", "noun", [(1 : ℝ), 0]⟩,
      ⟨"m", "w2", "d2", "noun", [(1 : ℝ)]⟩] : List StoredEmbedding).filter
      (fun r => r.model = "m")).take 1000 =
      [⟨"m", "w1", "d1", "noun", [(1 : ℝ), 0]⟩,
       ⟨"m", "w2", "d2", "noun", [(1 : ℝ)]⟩] from rfl]
  rw [mapM_score_error [(1 : ℝ), 0] _
    ⟨⟨"m", "w2", "d2", "noun", [(1 : ℝ)]⟩, by simp, by simp⟩]

/-- C2 (amended): during the brute-force fallback search a stored vector
whose length differs from the query vector's length is NOT skipped: the
similarity computation throws and the error aborts the whole search.  The
search fails exactly when some stored vector inside the examined (capped,
model-filtered) set has a mismatched length. -/
theorem claim2_amended (db : List StoredEmbedding) (q : List ℝ) (model : String)
    (limit : Nat) (threshold : ℝ) :
    fallbackSimilaritySearch db q model limit threshold = .error () ↔
    ∃ r ∈ (db.filter (fun r => r.model = model)).take 1000,
      r.embedding.length ≠ q.length := by
  unfold fallbackSimilaritySearch
  by_cases h : ∃ r ∈ (db.filter (fun r => r.model = model)).take 1000,
      r.embedding.length ≠ q.length
  · rw [mapM_score_error q _ h]
    simpa using h
  · have hall : ∀ r ∈ (db.filter (fun r => r.model = model)).take 1000,
        r.embedding.length = q.length := by
      intro r hr
      by_contra hne
      exact h ⟨r, hr, hne⟩
    rw [mapM_score_ok q _ hall]
    constructor
    · intro habs
      exact absurd habs (by simp)
    · intro hex
      exact absurd hex h

/-- C3: on a corpus whose examined stored vectors all match the query
dimension, the brute-force fallback search equals the specification's
reference pipeline: cap at 1000 records for the model, score by cosine
similarity, keep those at or above the threshold, sort descending, and
truncate to the limit. -/
theorem claim3_fallback_matches_spec (db : List StoredEmbedding) (q : List ℝ)
    (model : String) (limit : Nat) (threshold : ℝ)
    (hdim : ∀ r ∈ (db.filter (fun r => r.model = model)).take 1000,
      r.embedding.length = q.length) :
    fallbackSimilaritySearch db q model limit threshold =
      .ok (specFallbackPipeline db q model limit threshold) := by
  unfold fallbackSimilaritySearch specFallbackPipeline
  rw [mapM_score_ok q _ hdim]

/-- C3 witness: the equivalence at a concrete one-record corpus. -/
theorem claim3_witness :
    fallbackSimilaritySearch [⟨"m", "w1", "d1", "noun", [(1 : ℝ), 0]⟩]
      [(1 : ℝ), 0] "m" 5 0 =
    .ok (specFallbackPipeline [⟨"m", "w1", "d1", "noun", [(1 : ℝ), 0]⟩]
      [(1 : ℝ), 0] "m" 5 0) :=
  claim3_fallback_matches_spec _ _ _ _ _ (by
    intro r hr
    rw [show (([⟨"m", "w1", "d1", "noun", [(1 : ℝ), 0]⟩] :
        List StoredEmbedding).filter (fun r => r.model = "m")).take 1000 =
        [⟨"m", "w1", "d1", "noun", [(1 : ℝ), 0]⟩] from rfl] at hr
    rcases List.mem_singleton.mp hr with rfl
    rfl)



/-! ## Claim C7: approximate cache-key lookup -/

lemma levenshteinRowStep_length (c2 : Char) :
    ∀ (s1 : List Char) (ps : List Nat) (diag left : Nat),
      ps.length = s1.length →
      (levenshteinRowStep c2 s1 ps diag left).length = s1.length := by
  intro s1
  induction s1 with
  | nil => intro ps diag left _; rfl
  | cons c1 t ih =>
    intro ps diag left h
    cases ps with
    | nil => simp at h
    | cons p pt =>
      simp only [levenshteinRowStep, List.length_cons]
      rw [ih pt p _ (by simpa using h)]

lemma levenshteinNextRow_length (c2 : Char) (s1 : List Char) (prev : List Nat)
    (h : prev.length = s1.length + 1) :
    (levenshteinNextRow c2 s1 prev).length = s1.length + 1 := by
  cases prev with
  | nil => simp at h
  | cons p ps =>
    simp only [levenshteinNextRow, List.length_cons]
    rw [levenshteinRowStep_length c2 s1 ps p _ (by simpa using h)]

lemma levenshteinRowStep_bound (c2 : Char) :
    ∀ (s1 : List Char) (ps : List Nat) (diag left j base : Nat),
      diag ≤ max base j →
      (∀ k, k < ps.length → ps.getD k 0 ≤ max (base + 1 + k) j) →
      ∀ k, k < (levenshteinRowStep c2 s1 ps diag left).length →
        (levenshteinRowStep c2 s1 ps diag left).getD k 0 ≤
          max (base + 1 + k) (j + 1) := by
  intro s1
  induction s1 with
  | nil => intro ps diag left j base _ _ k hk; simp [levenshteinRowStep] at hk
  | cons c1 t ih =>
    intro ps diag left j base hdiag hps k hk
    cases ps with
    | nil => simp [levenshteinRowStep] at hk
    | cons p pt =>
      cases k with
      | zero =>
        simp only [levenshteinRowStep, List.getD_cons_zero]
        have hind : (if c1 = c2 then 0 else 1) ≤ 1 := by split <;> omega
        omega
      | succ m =>
        simp only [levenshteinRowStep, List.getD_cons_succ]
        have hp : p ≤ max (base + 1) j := by
          have := hps 0 (by simp)
          simpa using this
        have hpt : ∀ k, k < pt.length → pt.getD k 0 ≤ max (base + 1 + 1 + k) j := by
          intro k hk2
          have h2 := hps (k + 1) (by simp; omega)
          simp only [List.getD_cons_succ] at h2
          omega
        have hrec := ih pt p
          (min (min (left + 1) (p + 1)) (diag + if c1 = c2 then 0 else 1))
          j (base + 1) hp hpt m (by
            simp only [levenshteinRowStep, List.length_cons] at hk
            omega)
        omega

lemma levenshteinNextRow_bound (c2 : Char) (s1 : List Char) (prev : List Nat)
    (j : Nat) (hprev : ∀ k, k < prev.length → prev.getD k 0 ≤ max k j) :
    ∀ k, k < (levenshteinNextRow c2 s1 prev).length →
      (levenshteinNextRow c2 s1 prev).getD k 0 ≤ max k (j + 1) := by
  cases prev with
  | nil => intro k hk; simp [levenshteinNextRow] at hk
  | cons p ps =>
    intro k hk
    have hp : p ≤ max 0 j := by
      have := hprev 0 (by simp)
      simpa using this
    cases k with
    | zero =>
      simp only [levenshteinNextRow, List.getD_cons_zero]
      omega
    | succ m =>
      simp only [levenshteinNextRow, List.getD_cons_succ]
      have hps : ∀ k, k < ps.length → ps.getD k 0 ≤ max (0 + 1 + k) j := by
        intro k hk2
        have h2 := hprev (k + 1) (by simp; omega)
        simp only [List.getD_cons_succ] at h2
        omega
      have hrec := levenshteinRowStep_bound c2 s1 ps p (p + 1) j 0
        (by omega) hps m (by
          simp only [levenshteinNextRow, List.length_cons] at hk
          omega)
      omega

lemma levenshtein_rows_bound (s1 : List Char) :
    ∀ (s2 : List Char) (row : List Nat) (j : Nat),
      row.length = s1.length + 1 →
      (∀ k, k < row.length → row.getD k 0 ≤ max k j) →
      (s2.foldl (fun prev c2 => levenshteinNextRow c2 s1 prev) row).length =
        s1.length + 1 ∧
      ∀ k, k < (s2.foldl (fun prev c2 => levenshteinNextRow c2 s1 prev) row).length →
        (s2.foldl (fun prev c2 => levenshteinNextRow c2 s1 prev) row).getD k 0 ≤
          max k (j + s2.length) := by
  intro s2
  induction s2 with
  | nil =>
    intro row j h1 h2
    exact ⟨h1, by simpa using h2⟩
  | cons c t ih =>
    intro row j h1 h2
    have hlen := levenshteinNextRow_length c s1 row h1
    have hb := levenshteinNextRow_bound c s1 row j h2
    have hmain := ih (levenshteinNextRow c s1 row) (j + 1) hlen hb
    simp only [List.foldl_cons]
    refine ⟨hmain.1, ?_⟩
    intro k hk
    have := hmain.2 k hk
    simp only [List.length_cons]
    omega

lemma getLastD_eq_getD (l : List Nat) (d : Nat) (h : l ≠ []) :
    l.getLastD d = l.getD (l.length - 1) d := by
  cases l with
  | nil => simp at h
  | cons a t =>
    rw [List.getLastD_eq_getLast?, List.getLast?_eq_getElem?]
    simp [List.getD]

lemma calculateLevenshteinDistance_le (str1 str2 : String) :
    calculateLevenshteinDistance str1 str2 ≤ max str1.length str2.length := by
  unfold calculateLevenshteinDistance
  have h1 : (List.range (str1.data.length + 1)).length = str1.data.length + 1 := by
    simp
  have h2 : ∀ k, k < (List.range (str1.data.length + 1)).length →
      (List.range (str1.data.length + 1)).getD k 0 ≤ max k 0 := by
    intro k hk
    rw [List.getD_eq_getElem _ _ (by simpa using hk)]
    simp
  have hmain := levenshtein_rows_bound str1.data str2.data
    (List.range (str1.data.length + 1)) 0 h1 h2
  have hne : str2.data.foldl (fun prev c2 => levenshteinNextRow c2 str1.data prev)
      (List.range (str1.data.length + 1)) ≠ [] := by
    intro hcontra
    rw [hcontra] at hmain
    simp at hmain
  rw [getLastD_eq_getD _ _ hne, hmain.1, Nat.add_sub_cancel]
  have hfin := hmain.2 str1.data.length (by rw [hmain.1]; omega)
  have hs1 : str1.length = str1.data.length := rfl
  have hs2 : str2.length = str2.data.length := rfl
  omega

lemma calculateStringSimilarity_eq (str1 str2 : String) :
    calculateStringSimilarity str1 str2 =
      if (if str1.length > str2.length then str1 else str2).length = 0 then 1
      else (((if str1.length > str2.length then str1 else str2).length : ℚ) -
        calculateLevenshteinDistance
          (if str1.length > str2.length then str1 else str2)
          (if str1.length > str2.length then str2 else str1)) /
        (if str1.length > str2.length then str1 else str2).length := rfl

lemma simFormula_bounds (longer shorter : String)
    (h : shorter.length ≤ longer.length) :
    0 ≤ (if longer.length = 0 then (1 : ℚ)
        else ((longer.length : ℚ) - calculateLevenshteinDistance longer shorter) /
          longer.length) ∧
      (if longer.length = 0 then (1 : ℚ)
        else ((longer.length : ℚ) - calculateLevenshteinDistance longer shorter) /
          longer.length) ≤ 1 := by
  by_cases h0 : longer.length = 0
  · rw [if_pos h0]
    norm_num
  · rw [if_neg h0]
    have hd := calculateLevenshteinDistance_le longer shorter
    have hmax : max longer.length shorter.length = longer.length := by omega
    rw [hmax] at hd
    have hdq : (calculateLevenshteinDistance longer shorter : ℚ) ≤
        (longer.length : ℚ) := by exact_mod_cast hd
    have hpos : (0 : ℚ) < (longer.length : ℚ) := by
      have : 0 < longer.length := Nat.pos_of_ne_zero h0
      exact_mod_cast this
    constructor
    · apply div_nonneg _ (le_of_lt hpos)
      linarith
    · rw [div_le_one hpos]
      have h0d : (0 : ℚ) ≤ (calculateLevenshteinDistance longer shorter : ℚ) := by
        positivity
      linarith

lemma calculateStringSimilarity_bounds (str1 str2 : String) :
    0 ≤ calculateStringSimilarity str1 str2 ∧
      calculateStringSimilarity str1 str2 ≤ 1 := by
  rw [calculateStringSimilarity_eq]
  by_cases h1 : str1.length > str2.length
  · rw [if_pos h1, if_pos h1]
    exact simFormula_bounds str1 str2 (by omega)
  · rw [if_neg h1, if_neg h1]
    exact simFormula_bounds str2 str1 (by omega)

/-- C7 counterexample: with the single live key `b:x` (operation `b`) and
the candidate `a:x` (operation `a`), `findSimilarKeys` returns `b:x` even
though it does not share the candidate's operation prefix — no prefix
filtering is performed (and the candidate itself would be excluded by the
`cacheKey !== key` check). -/
theorem claim7_counterexample :
    findSimilarKeys ["b:x"] "a:x" (1/2) = ["b:x"] ∧
    ("b:x").data.takeWhile (fun c => c ≠ ':') ≠
      ("a:x").data.takeWhile (fun c => c ≠ ':') := by
  constructor
  · have hlev : calculateLevenshteinDistance "b:x" "a:x" = 1 := by decide
    have hsim : calculateStringSimilarity "a:x" "b:x" = 2/3 := by
      rw [calculateStringSimilarity_eq]
      rw [if_neg (by decide : ¬ (("a:x" : String).length > ("b:x" : String).length))]
      rw [if_neg (by decide : ¬ (("a:x" : String).length > ("b:x" : String).length))]
      rw [hlev]
      have hb : ("b:x" : String).length = 3 := rfl
      rw [hb, if_neg (by decide : ¬ (3 = 0))]
      norm_num
    unfold findSimilarKeys
    rw [List.filter_cons]
    have hcond : (decide ((1 : ℚ)/2 ≤ calculateStringSimilarity "a:x" "b:x") &&
        ("b:x" != "a:x")) = true := by
      rw [hsim]
      simp only [Bool.and_eq_true, decide_eq_true_eq, bne_iff_ne, ne_eq]
      refine ⟨by norm_num, by decide⟩
    rw [if_pos hcond, List.filter_nil]
  · decide

/-- C7 (amended): `findSimilarKeys` returns exactly the live keys — of any
operation, not only those sharing the candidate's operation prefix — other
than the candidate itself whose similarity `(maxLen - levenshtein) / maxLen`
(a value in [0, 1]) is at least the threshold. -/
theorem claim7_amended :
    (∀ (liveKeys : List String) (key : String) (threshold : ℚ) (k : String),
      k ∈ findSimilarKeys liveKeys key threshold ↔
        (k ∈ liveKeys ∧ threshold ≤ calculateStringSimilarity key k ∧ k ≠ key)) ∧
    (∀ s t : String, 0 ≤ calculateStringSimilarity s t ∧
      calculateStringSimilarity s t ≤ 1) := by
  constructor
  · intro liveKeys key threshold k
    unfold findSimilarKeys
    rw [List.mem_filter]
    simp [and_assoc]
  · exact calculateStringSimilarity_bounds



/-! ## Witnesses instantiating the remaining amended theorems -/

/-- C1 witness: the amended equivalence applied at concrete inputs where
all needed sub-operations succeed — including the falsy empty-string
context, where the contextual sub-call is skipped and its oracle may even
fail without affecting the result. -/
theorem claim1_witness :
    (performComprehensiveAnalysis "blue" none (.ok []) (.ok [])
      (.ok "a color") (.ok [])).isOk = true ∧
    (performComprehensiveAnalysis "blue" (some "") (.ok []) (.ok [])
      (.ok "a color") (.error ())).isOk = true :=
  ⟨(claim1_amended "blue" none (.ok []) (.ok []) (.ok "a color") (.ok [])).mpr
    ⟨rfl, rfl, rfl, fun h => nomatch h⟩,
   (claim1_amended "blue" (some "") (.ok []) (.ok [])
      (.ok "a color") (.error ())).mpr
    ⟨rfl, rfl, rfl, fun h => nomatch h⟩⟩

/-- C2 witness: the amended equivalence applied at a concrete corpus with a
mismatched stored vector. -/
theorem claim2_witness :
    fallbackSimilaritySearch [⟨"m", "w", "d", "n", [(1 : ℝ)]⟩]
      [(2 : ℝ), 3] "m" 1 0 = .error () :=
  (claim2_amended [⟨"m", "w", "d", "n", [(1 : ℝ)]⟩] [(2 : ℝ), 3] "m" 1 0).mpr
    ⟨⟨"m", "w", "d", "n", [(1 : ℝ)]⟩, by simp, by simp⟩

/-- C6 witness: the amended key collision at a concrete word. -/
theorem claim6_witness :
    synonymsCacheKey "blue" none = synonymsCacheKey "blue" (some "default") ∧
    analysisCacheKey "blue" none = analysisCacheKey "blue" (some "default") :=
  claim6_amended "blue"

/-- C7 witness: the amended membership characterisation at a concrete
key set. -/
theorem claim7_witness :
    "b:x" ∈ findSimilarKeys ["b:x"] "a:x" 0 ↔
      ("b:x" ∈ ["b:x"] ∧ 0 ≤ calculateStringSimilarity "a:x" "b:x" ∧
        "b:x" ≠ "a:x") :=
  claim7_amended.1 ["b:x"] "a:x" 0 "b:x"

/-- C9 witness: the amended availability facts at a concrete state. -/
theorem claim9_witness :
    isProviderAvailable true EmbeddingProvider.word2vec = true ∧
    isProviderAvailable true EmbeddingProvider.ollama = true :=
  claim9_amended true

/-- C10 witness: the amended bound applied at a concrete response. -/
theorem claim10_witness :
    (fallbackParseWords "Happy, joy").length ≤ 10 :=
  (claim10_amended "Happy, joy").1


end Thesaurus
